import Mathlib

/-!
# Verification of the gb-recompiled runtime (`runtime/src/gbrt.c`)

A shallow embedding of the GameBoy runtime library `gbrt.c` into Lean.
Machine integers are modelled as `Nat` with explicit `% 2^w` at the points
where the C code converts between integer widths (function-parameter and
return-type conversions, assignments to narrower fields).  Byte memories
(`wram`, `vram`, `oam`, `hram`, `io`, `eram`) are modelled as functions
`Nat → Nat`; a store is a pointwise update.

The PPU collaborator (`ppu.c`) and the recompiler tool are not part of the
sources under verification; the context records only whether a PPU is
attached (`ppu : Bool`), and every theorem about the timing tick is stated
for contexts without one (`ppu = false`), where `gbrt.c` skips all PPU
calls.  The few definitions that stand in for code outside `gbrt.c` carry a
doc comment starting with `Modelled from the spec:`.
-/

namespace GbRt

/-- Pointwise update of a byte memory, modelling a single array store. -/
def updf (f : Nat → Nat) (k v : Nat) : Nat → Nat :=
  fun i => if i = k then v else f i

/-- The runtime context `GBContext` of `gbrt.c`, restricted to the fields the
runtime sources use.  Registers `b`‥`l` and the packed `af`/`bc`/… pairs are
not touched by any of the functions embedded here and are omitted. -/
structure GBContext where
  /-- accumulator `a` (uint8) -/
  a : Nat
  f_z : Bool
  f_n : Bool
  f_h : Bool
  f_c : Bool
  /-- stack pointer (uint16) -/
  sp : Nat
  /-- program counter (uint16) -/
  pc : Nat
  ime : Bool
  ime_pending : Bool
  halted : Bool
  stopped : Bool
  /-- cartridge ROM bytes; `none` models the NULL pointer before a ROM is loaded -/
  rom : Option (Nat → Nat)
  rom_size : Nat
  rom_bank : Nat
  ram_bank : Nat
  wram_bank : Nat
  vram_bank : Nat
  ram_enabled : Bool
  mbc_type : Nat
  vram : Nat → Nat
  wram : Nat → Nat
  oam : Nat → Nat
  hram : Nat → Nat
  /-- the `io` array: indices 0x00‥0x7F are I/O registers, index 0x80 holds IE -/
  ioRegs : Nat → Nat
  eram : Option (Nat → Nat)
  eram_size : Nat
  /-- cycle counter (uint32) -/
  cycles : Nat
  frame_cycles : Nat
  /-- whether a PPU collaborator is attached (`ctx->ppu != NULL`) -/
  ppu : Bool

/-- Modelled from the spec: `ppu_read_register` lives in `ppu.c`, which is not
among the sources here.  No theorem below depends on it: every statement about
the bus either avoids 0xFF40‑0xFF4B or takes a context with `ppu = false`,
where `gbrt.c` never reaches this call. -/
def ppu_read_register (_addr : Nat) : Nat := 0

/-- Modelled from the spec: `ppu_write_register` lives in `ppu.c` (see
`ppu_read_register`).  Unused by every theorem below. -/
def ppu_write_register (ctx : GBContext) (_addr _value : Nat) : GBContext := ctx

/-- `gb_read8` of `gbrt.c`, with one unit of fuel for the echo-RAM forward
(`0xE000‑0xFDFF` reads `addr - 0x2000`, which always lands in WRAM, so the
recursion is at most one level deep).  The trailing `% 256` is the `uint8_t`
return-type conversion. -/
def gb_read8_go : Nat → GBContext → Nat → Nat
  | 0, _, _ => 0xFF
  | fuel + 1, ctx, addr =>
    (if addr ≤ 0x3FFF then
      -- ROM bank 0
      match ctx.rom with
      | some r => r addr
      | none => 0xFF
    else if addr ≤ 0x7FFF then
      -- ROM bank N
      let offset := ctx.rom_bank * 0x4000 + (addr - 0x4000)
      match ctx.rom with
      | some r => if offset < ctx.rom_size then r offset else 0xFF
      | none => 0xFF
    else if addr ≤ 0x9FFF then
      ctx.vram (addr - 0x8000 + ctx.vram_bank * 0x2000)
    else if addr ≤ 0xBFFF then
      -- external RAM, gated by the RAM-enable latch
      if ctx.ram_enabled then
        match ctx.eram with
        | some er =>
          let offset := ctx.ram_bank * 0x2000 + (addr - 0xA000)
          if offset < ctx.eram_size then er offset else 0xFF
        | none => 0xFF
      else 0xFF
    else if addr ≤ 0xCFFF then
      ctx.wram (addr - 0xC000)
    else if addr ≤ 0xDFFF then
      ctx.wram ((addr - 0xD000) + ctx.wram_bank * 0x1000)
    else if addr ≤ 0xFDFF then
      -- echo RAM forwards to addr - 0x2000
      gb_read8_go fuel ctx (addr - 0x2000)
    else if addr ≤ 0xFE9F then
      ctx.oam (addr - 0xFE00)
    else if addr ≤ 0xFEFF then
      0xFF
    else if addr ≤ 0xFF7F then
      -- I/O registers; 0xFF40‑0xFF4B delegate to the PPU when one is attached
      if 0xFF40 ≤ addr ∧ addr ≤ 0xFF4B ∧ ctx.ppu then
        ppu_read_register addr
      else if addr = 0xFF00 then
        -- joypad: without SDL the platform state is absent and the C code
        -- returns `joyp | 0x0F` (all buttons released)
        ctx.ioRegs 0x00 ||| 0x0F
      else
        ctx.ioRegs (addr - 0xFF00)
    else if addr ≤ 0xFFFE then
      ctx.hram (addr - 0xFF80)
    else
      -- IE register, stored at io[0x80]
      ctx.ioRegs 0x80) % 256

/-- `gb_read8(ctx, addr)`. -/
def gb_read8 (ctx : GBContext) (addr : Nat) : Nat :=
  gb_read8_go 2 ctx addr

/-- `gb_write8` of `gbrt.c`, with the same one-deep echo-RAM fuel as
`gb_read8_go`.  `value` has already been reduced to a byte by the caller
(`gb_write8` applies the `uint8_t` parameter conversion). -/
def gb_write8_go : Nat → GBContext → Nat → Nat → GBContext
  | 0, ctx, _, _ => ctx
  | fuel + 1, ctx, addr, value =>
    if addr ≤ 0x7FFF then
      -- ROM area: MBC register writes, never data stores
      -- (source comment: "TODO: Implement full MBC handling")
      if 0x2000 ≤ addr ∧ addr ≤ 0x3FFF then
        -- "ROM bank select (simplified)": the full byte is stored, 0 → 1
        { ctx with rom_bank := if value = 0 then 1 else value }
      else if addr ≤ 0x1FFF then
        { ctx with ram_enabled := value % 16 = 0x0A }
      else if 0x4000 ≤ addr ∧ addr ≤ 0x5FFF then
        { ctx with ram_bank := value % 4 }
      else
        ctx
    else if addr ≤ 0x9FFF then
      { ctx with vram := updf ctx.vram (addr - 0x8000 + ctx.vram_bank * 0x2000) value }
    else if addr ≤ 0xBFFF then
      if ctx.ram_enabled then
        match ctx.eram with
        | some er =>
          let offset := ctx.ram_bank * 0x2000 + (addr - 0xA000)
          if offset < ctx.eram_size then
            { ctx with eram := some (updf er offset value) }
          else ctx
        | none => ctx
      else ctx
    else if addr ≤ 0xCFFF then
      { ctx with wram := updf ctx.wram (addr - 0xC000) value }
    else if addr ≤ 0xDFFF then
      { ctx with wram := updf ctx.wram ((addr - 0xD000) + ctx.wram_bank * 0x1000) value }
    else if addr ≤ 0xFDFF then
      gb_write8_go fuel ctx (addr - 0x2000) value
    else if addr ≤ 0xFE9F then
      { ctx with oam := updf ctx.oam (addr - 0xFE00) value }
    else if addr ≤ 0xFEFF then
      ctx
    else if addr ≤ 0xFF7F then
      if 0xFF40 ≤ addr ∧ addr ≤ 0xFF4B ∧ ctx.ppu then
        ppu_write_register ctx addr value
      else
        { ctx with ioRegs := updf ctx.ioRegs (addr - 0xFF00) value }
    else if addr ≤ 0xFFFE then
      { ctx with hram := updf ctx.hram (addr - 0xFF80) value }
    else
      { ctx with ioRegs := updf ctx.ioRegs 0x80 value }

/-- `gb_write8(ctx, addr, value)`; `% 256` is the `uint8_t` parameter
conversion. -/
def gb_write8 (ctx : GBContext) (addr : Nat) (value : Nat) : GBContext :=
  gb_write8_go 2 ctx addr (value % 256)

/-- `gb_read16`: low byte at `addr`, high byte at `addr + 1` (the `uint16_t`
parameter wraps the increment).  Both bytes are `< 256`, so the C expression
`lo | (hi << 8)` equals `lo + 256 * hi`. -/
def gb_read16 (ctx : GBContext) (addr : Nat) : Nat :=
  gb_read8 ctx addr + 256 * gb_read8 ctx ((addr + 1) % 65536)

/-- `gb_write16`: little-endian store through the bus; `% 65536` is the
`uint16_t` parameter conversion, `value & 0xFF` is `v % 256`, and
`(uint8_t)(value >> 8)` is `v / 256` for a 16-bit `v`. -/
def gb_write16 (ctx : GBContext) (addr : Nat) (value : Nat) : GBContext :=
  let v := value % 65536
  gb_write8 (gb_write8 ctx addr (v % 256)) ((addr + 1) % 65536) (v / 256)

/-- `gb_push16`: `sp -= 2` in `uint16_t` arithmetic, then a little-endian
store at the new SP. -/
def gb_push16 (ctx : GBContext) (value : Nat) : GBContext :=
  let sp' := (ctx.sp + 65534) % 65536
  gb_write16 { ctx with sp := sp' } sp' value

/-- `gb_pop16`: read little-endian at SP, then `sp += 2` (uint16).  Returns
the popped value together with the updated context. -/
def gb_pop16 (ctx : GBContext) : Nat × GBContext :=
  let v := gb_read16 ctx ctx.sp
  (v, { ctx with sp := (ctx.sp + 2) % 65536 })

/-! ## ALU primitives -/

/-- `gb_add8`: `uint16_t result = a + v`; flags from the pre-state `a`. -/
def gb_add8 (ctx : GBContext) (value : Nat) : GBContext :=
  let a := ctx.a % 256
  let v := value % 256
  let result := a + v
  { ctx with
    a := result % 256
    f_z := decide (result % 256 = 0)
    f_n := false
    f_h := decide (0x0F < a % 16 + v % 16)
    f_c := decide (0xFF < result) }

/-- The signed value of an `int8_t` whose byte encoding is `u`. -/
def int8_val (u : Nat) : Int :=
  (u % 256 : Nat) - (if 128 ≤ u % 256 then 256 else 0)

/-- `gb_add_sp(ctx, offset)`: `offset` is the *byte encoding* of the
`int8_t` parameter.  The C code computes `(uint16_t)(uint32_t)(sp + offset)`
in integer arithmetic, which for `sp < 2^16` is `(sp + offset) mod 2^16`;
`offset & 0x0F` and `offset & 0xFF` take the low nibble and the unsigned
byte of the sign-extended offset. -/
def gb_add_sp (ctx : GBContext) (offset : Nat) : GBContext :=
  let u := offset % 256
  { ctx with
    sp := (((ctx.sp : Int) + int8_val u) % 65536).toNat
    f_z := false
    f_n := false
    f_h := decide (0x0F < ctx.sp % 16 + u % 16)
    f_c := decide (0xFF < ctx.sp % 256 + u) }

/-! ## Control flow, interpreter, dispatch -/

/-- `gb_ret`: `pc = gb_pop16(ctx)`. -/
def gb_ret (ctx : GBContext) : GBContext :=
  let p := gb_pop16 ctx
  { p.2 with pc := p.1 }

/-- `gb_interpret` of `gbrt.c`.  It sets PC to the requested address, then —
only for HRAM addresses — recognizes the two OAM-DMA trampoline byte
patterns and short-circuits them (perform the 0xFF46 write, then a RET).
Every other case falls through to the logging stub at the end of the C
function ("Executing uncompiled code … Implementation missing using
interpreter stub"), which changes nothing beyond PC. -/
def gb_interpret (ctx0 : GBContext) (addr : Nat) : GBContext :=
  let ctx := { ctx0 with pc := addr }
  if 0xFF80 ≤ addr ∧ addr ≤ 0xFFFE then
    let opcode := ctx.hram (addr - 0xFF80)
    if opcode = 0xE0 then
      -- LDH (n), A
      if ctx.hram (addr - 0xFF80 + 1) = 0x46 then
        gb_ret (gb_write8 ctx 0xFF46 ctx.a)
      else ctx
    else if opcode = 0x3E then
      -- LD A, n followed by LDH (0xFF46), A
      if ctx.hram (addr - 0xFF80 + 2) = 0xE0 ∧ ctx.hram (addr - 0xFF80 + 3) = 0x46 then
        let ctx := { ctx with a := ctx.hram (addr - 0xFF80 + 1) }
        gb_ret (gb_write8 ctx 0xFF46 ctx.a)
      else ctx
    else ctx
  else ctx

/-- The generic (non-trampoline) path of `gb_interpret`: the fallback at
lines 801‑808 of `gbrt.c`, which only logs "Implementation missing using
interpreter stub" and performs no instruction execution — the context is
unchanged except that PC was set to `addr` at entry. -/
def gb_interpret_generic (ctx : GBContext) (addr : Nat) : GBContext :=
  { ctx with pc := addr }

/-- The weak-symbol `gb_dispatch` of `gbrt.c`: set PC and fall through to the
interpreter. -/
def gb_dispatch (ctx : GBContext) (addr : Nat) : GBContext :=
  gb_interpret { ctx with pc := addr } addr

/-- `gb_call`: push the current PC (the return address), then dispatch. -/
def gb_call (ctx : GBContext) (addr : Nat) : GBContext :=
  gb_dispatch (gb_push16 ctx ctx.pc) addr

/-! ## Timing tick and interrupt controller -/

/-- `gb_add_cycles`: both counters are `uint32_t`. -/
def gb_add_cycles (ctx : GBContext) (cycles : Nat) : GBContext :=
  { ctx with
    cycles := (ctx.cycles + cycles) % 4294967296
    frame_cycles := (ctx.frame_cycles + cycles) % 4294967296 }

/-- Modelled from the spec: `ppu_tick` lives in `ppu.c`, which is not among
the sources here (per §6 it may set IF bits 0/1 and signal frame-ready).
Every theorem below about `gb_tick` takes a context with `ppu = false`,
where `gbrt.c` skips this call, so this placeholder is never relied upon. -/
def ppu_tick_model (ctx : GBContext) (_cycles : Nat) : GBContext := ctx

/-- The interrupt-controller part of `gb_tick` (`gbrt.c` lines 916‑948):
select the highest-priority pending bit, clear it in IF, and dispatch.
`pending` is already known nonzero when this runs. -/
def gb_tick_dispatch (ctx : GBContext) (pending : Nat) : GBContext :=
  let ctx := { ctx with ime := false, halted := false }
  -- priority: VBlank > LCD STAT > Timer > Serial > Joypad
  let vb : Nat × Nat :=
    if pending &&& 0x01 ≠ 0 then (0x0040, 0x01)
    else if pending &&& 0x02 ≠ 0 then (0x0048, 0x02)
    else if pending &&& 0x04 ≠ 0 then (0x0050, 0x04)
    else if pending &&& 0x08 ≠ 0 then (0x0058, 0x08)
    else if pending &&& 0x10 ≠ 0 then (0x0060, 0x10)
    else (0, 0)
  if vb.1 ≠ 0 then
    -- clear the interrupt flag: io[0x0F] &= ~bit (byte arithmetic)
    let ctx := { ctx with ioRegs := updf ctx.ioRegs 0x0F ((ctx.ioRegs 0x0F) &&& (255 - vb.2)) }
    -- NOTE: the C source comment says "Push PC and jump to handler", but the
    -- code calls gb_dispatch directly and never pushes PC.
    gb_dispatch ctx vb.1
  else ctx

/-- `gb_tick` of `gbrt.c` (debug logging and the SDL-only sections omitted):
add cycles, promote a pending EI, check and dispatch interrupts, then drive
the PPU when one is attached. -/
def gb_tick (ctx0 : GBContext) (cycles : Nat) : GBContext :=
  let ctx := gb_add_cycles ctx0 cycles
  -- handle pending IME enable (from EI instruction)
  let ctx := if ctx.ime_pending then { ctx with ime := true, ime_pending := false } else ctx
  -- check and dispatch interrupts
  let ctx :=
    if ctx.ime then
      let pending := ctx.ioRegs 0x0F &&& ctx.ioRegs 0x80 &&& 0x1F
      if pending ≠ 0 then gb_tick_dispatch ctx pending else ctx
    else ctx
  -- update PPU (skipped when no PPU is attached)
  if ctx.ppu then ppu_tick_model ctx cycles else ctx

/-- The body of `gb_halt`'s spin loop, indexed by the remaining number of
iterations (`gbrt.c` counts `max_cycles` down from 70224 in steps of 4, i.e.
17556 iterations).  Each iteration ticks 4 cycles, then wakes up when
`IE & IF` is nonzero. -/
def gb_halt_loop : Nat → GBContext → GBContext
  | 0, ctx => ctx
  | fuel + 1, ctx =>
    if ctx.halted then
      let c1 := gb_tick ctx 4
      if c1.ioRegs 0x80 &&& c1.ioRegs 0x0F ≠ 0 then
        { c1 with halted := false }
      else
        gb_halt_loop fuel c1
    else ctx

/-- `gb_halt`: set `halted`, then spin for at most one frame's worth of
cycles (70224 = 4 · 17556). -/
def gb_halt (ctx : GBContext) : GBContext :=
  gb_halt_loop 17556 { ctx with halted := true }

/-- `gb_step`: dispatch at the current PC, then handle a pending EI. -/
def gb_step (ctx : GBContext) : GBContext :=
  let c := gb_dispatch ctx ctx.pc
  if c.ime_pending then { c with ime := true, ime_pending := false } else c

/-! ## Cartridge loading -/

/-- The ERAM-size table keyed by header byte 0x149, as in the `switch` of
`gb_context_load_rom` (and in spec §4.1): 0→0, 1→2 KiB, 2→8 KiB, 3→32 KiB,
4→128 KiB, 5→64 KiB, anything else → 0. -/
def eram_size_code (code : Nat) : Nat :=
  if code = 0 then 0
  else if code = 1 then 2048
  else if code = 2 then 8192
  else if code = 3 then 32768
  else if code = 4 then 131072
  else if code = 5 then 65536
  else 0

/-- `gb_context_load_rom` of `gbrt.c`: copy the ROM, and when at least 0x148
bytes are present read the MBC type from 0x147 and allocate ERAM per byte
0x149, forcing 512 bytes for MBC2 (codes 0x05/0x06).  It never fails on a
short or malformed header. -/
def gb_context_load_rom (ctx : GBContext) (data : List Nat) : GBContext :=
  let ctx := { ctx with rom := some (fun i => data.getD i 0), rom_size := data.length }
  if 0x148 ≤ data.length then
    let mbc := data.getD 0x147 0
    let ram_size := eram_size_code (data.getD 0x149 0)
    -- MBC2 has built-in RAM
    let ram_size := if mbc = 0x05 ∨ mbc = 0x06 then 512 else ram_size
    let ctx := { ctx with mbc_type := mbc }
    if 0 < ram_size then
      { ctx with eram := some (fun _ => 0), eram_size := ram_size }
    else ctx
  else ctx

/-- The MBC kinds the translation pipeline classifies (spec §3/§4.1). -/
inductive MbcKind where
  | romOnly | mbc1 | mbc2 | mbc3 | mbc5
  deriving DecidableEq, Repr

/-- The translation-time error classes (spec §7). -/
inductive TranslateError where
  | invalidCartridge | unsupportedMbc | analyzerLimitReached
  deriving DecidableEq, Repr

/-- The immutable cartridge record produced by the loader (spec §3). -/
structure Cartridge where
  mbc : MbcKind
  eramSize : Nat
  title : List Nat
  deriving DecidableEq, Repr

/-- The MBC classification table of spec §4.1: `0x00`→none, `0x01‑0x03`→MBC1,
`0x05‑0x06`→MBC2, `0x0F‑0x13`→MBC3, `0x19‑0x1E`→MBC5; anything else is
unrecognized. -/
def classifyMbc (b : Nat) : Option MbcKind :=
  if b = 0x00 then some .romOnly
  else if 0x01 ≤ b ∧ b ≤ 0x03 then some .mbc1
  else if b = 0x05 ∨ b = 0x06 then some .mbc2
  else if 0x0F ≤ b ∧ b ≤ 0x13 then some .mbc3
  else if 0x19 ≤ b ∧ b ≤ 0x1E then some .mbc5
  else none

/-- Modelled from the spec: the translation-time cartridge loader (component
C1, spec §4.1) lives in the recompiler tool, whose sources are not present
here (only the runtime is); `gb_context_load_rom` above is the runtime-side
loader and never fails.  Per §4.1 the loader fails with `InvalidCartridge`
when the input is shorter than 0x150 bytes or the MBC code at 0x147 is
unrecognized, and otherwise produces the cartridge record with the ERAM
size derived from byte 0x149 (512 bytes forced for MBC2) and the title from
0x134‑0x143. -/
def cartridge_load (data : List Nat) : Except TranslateError Cartridge :=
  if data.length < 0x150 then
    .error .invalidCartridge
  else
    match classifyMbc (data.getD 0x147 0) with
    | none => .error .invalidCartridge
    | some k =>
      let sz := eram_size_code (data.getD 0x149 0)
      .ok { mbc := k
            eramSize := if k = .mbc2 then 512 else sz
            title := ((data.drop 0x134).take 16) }

/-- Whether an `Except` result is an error. -/
def isErr : Except TranslateError Cartridge → Bool
  | .error _ => true
  | .ok _ => false

/-! ## Instruction steps modelled from the spec -/

/-- Modelled from the spec: the emitter's lowering of `EI` (the recompiler
sources are absent).  Per §4.4 EI lowers to `Interrupt {enable_delayed}` —
i.e. it sets `ime_pending` — and per §4.4/§5 every instruction emits its
`Tick` at its end ("a `Tick` always follows its originating instruction").
EI takes 4 cycles. -/
def step_EI (ctx : GBContext) : GBContext :=
  gb_tick { ctx with ime_pending := true } 4

/-- Modelled from the spec: the emitter's lowering of `NOP` — no state
change, followed by its 4-cycle `Tick`. -/
def step_NOP (ctx : GBContext) : GBContext :=
  gb_tick ctx 4

/-- A context with everything zeroed / absent: no ROM, no ERAM, no PPU,
all memories zero.  Base point for the concrete test states below. -/
def ctx0 : GBContext where
  a := 0
  f_z := false
  f_n := false
  f_h := false
  f_c := false
  sp := 0
  pc := 0
  ime := false
  ime_pending := false
  halted := false
  stopped := false
  rom := none
  rom_size := 0
  rom_bank := 1
  ram_bank := 0
  wram_bank := 1
  vram_bank := 0
  ram_enabled := false
  mbc_type := 0
  vram := fun _ => 0
  wram := fun _ => 0
  oam := fun _ => 0
  hram := fun _ => 0
  ioRegs := fun _ => 0
  eram := none
  eram_size := 0
  cycles := 0
  frame_cycles := 0
  ppu := false

/-- Test state for C1: IME set, VBlank pending (IF bit 0) and enabled
(IE bit 0), PC = 0x1234, SP = 0xFFFE, no PPU attached. -/
def ctxC1 : GBContext :=
  { ctx0 with
    ime := true
    pc := 0x1234
    sp := 0xFFFE
    ioRegs := updf (updf (fun _ => 0) 0x0F 0x01) 0x80 0x01 }

/-- Test state for C2: IME clear, no EI pending yet, VBlank pending in IF and
enabled in IE, PC at the entry point. -/
def ctxC2 : GBContext :=
  { ctx0 with
    pc := 0x0100
    sp := 0xFFFE
    ioRegs := updf (updf (fun _ => 0) 0x0F 0x01) 0x80 0x01 }

/-- Test state for C3: HRAM at 0xFF80 holds the canonical DMA trampoline
`LDH (0xFF46), A` (bytes E0 46), A = 0xC0, and the stack (SP = 0xC000, in
WRAM) holds the return address 0x1234 little-endian. -/
def ctxC3 : GBContext :=
  { ctx0 with
    a := 0xC0
    sp := 0xC000
    hram := updf (updf (fun _ => 0) 0 0xE0) 1 0x46
    wram := updf (updf (fun _ => 0) 0 0x34) 1 0x12 }

/-- Test state for C5: A = 0x3A (spec scenario 3). -/
def ctxC5 : GBContext := { ctx0 with a := 0x3A }

/-- Test state for C6: SP = 0xFFF8. -/
def ctxC6 : GBContext := { ctx0 with sp := 0xFFF8 }

/-- Test state for C7's counterexample: SP = 0x1000, so the pushed bytes land
at 0x0FFE/0x0FFF — MBC-register space, where nothing is stored and reads
come from ROM (0xFF with no ROM loaded). -/
def ctxC7 : GBContext := { ctx0 with sp := 0x1000 }

/-- Test state for C7's witness: SP = 0xFF90, so the pushed bytes land in
HRAM. -/
def ctxC7b : GBContext := { ctx0 with sp := 0xFF90 }

/-- Test input for C9: a 0x150-byte header with MBC code 0x13 (MBC3) and RAM
size code 0x03 (32 KiB) — spec scenario 1. -/
def dataC9 : List Nat :=
  ((List.replicate 0x150 0).set 0x147 0x13).set 0x149 0x03

/-!
## Theorems

First some reusable lemmas about the bus, the tick, and the HALT loop, then
one theorem per claim.
-/

/-- A `gb_write8` to HRAM stores the (truncated) byte into `hram` and
changes nothing else. -/
theorem gb_write8_hram (ctx : GBContext) (addr v : Nat) (h1 : 0xFF80 ≤ addr)
    (h2 : addr ≤ 0xFFFE) :
    gb_write8 ctx addr v = { ctx with hram := updf ctx.hram (addr - 0xFF80) (v % 256) } := by
  unfold gb_write8 gb_write8_go
  rw [if_neg (show ¬ addr ≤ 0x7FFF by omega), if_neg (show ¬ addr ≤ 0x9FFF by omega),
    if_neg (show ¬ addr ≤ 0xBFFF by omega), if_neg (show ¬ addr ≤ 0xCFFF by omega),
    if_neg (show ¬ addr ≤ 0xDFFF by omega), if_neg (show ¬ addr ≤ 0xFDFF by omega),
    if_neg (show ¬ addr ≤ 0xFE9F by omega), if_neg (show ¬ addr ≤ 0xFEFF by omega),
    if_neg (show ¬ addr ≤ 0xFF7F by omega), if_pos (show addr ≤ 0xFFFE by omega)]

/-- A `gb_read8` from HRAM returns the stored byte. -/
theorem gb_read8_hram (ctx : GBContext) (addr : Nat) (h1 : 0xFF80 ≤ addr)
    (h2 : addr ≤ 0xFFFE) :
    gb_read8 ctx addr = ctx.hram (addr - 0xFF80) % 256 := by
  unfold gb_read8 gb_read8_go
  rw [if_neg (show ¬ addr ≤ 0x3FFF by omega), if_neg (show ¬ addr ≤ 0x7FFF by omega),
    if_neg (show ¬ addr ≤ 0x9FFF by omega), if_neg (show ¬ addr ≤ 0xBFFF by omega),
    if_neg (show ¬ addr ≤ 0xCFFF by omega), if_neg (show ¬ addr ≤ 0xDFFF by omega),
    if_neg (show ¬ addr ≤ 0xFDFF by omega), if_neg (show ¬ addr ≤ 0xFE9F by omega),
    if_neg (show ¬ addr ≤ 0xFEFF by omega), if_neg (show ¬ addr ≤ 0xFF7F by omega),
    if_pos (show addr ≤ 0xFFFE by omega)]

/-- A tick on a context without a PPU and with `IE & IF = 0` only advances
the cycle counters and promotes a pending EI: no interrupt fires and no
memory changes. -/
theorem gb_tick_quiet (ctx : GBContext) (cycles : Nat) (hp : ctx.ppu = false)
    (h : ctx.ioRegs 0x80 &&& ctx.ioRegs 0x0F = 0) :
    gb_tick ctx cycles =
      { ctx with
          cycles := (ctx.cycles + cycles) % 4294967296
          frame_cycles := (ctx.frame_cycles + cycles) % 4294967296
          ime := ctx.ime || ctx.ime_pending
          ime_pending := false } := by
  have hpend : ctx.ioRegs 0x0F &&& ctx.ioRegs 0x80 &&& 0x1F = 0 := by
    rw [Nat.land_comm (ctx.ioRegs 0x0F), h]; rfl
  unfold gb_tick gb_add_cycles
  cases hip : ctx.ime_pending <;>
    simp [hip, hpend, hp]

/-- The HALT spin loop with `IE & IF = 0` and no PPU runs all its iterations,
advancing exactly 4 cycles per iteration. -/
theorem gb_halt_loop_quiet (n : Nat) (ctx : GBContext) (hp : ctx.ppu = false)
    (h : ctx.ioRegs 0x80 &&& ctx.ioRegs 0x0F = 0) (hh : ctx.halted = true)
    (hc : ctx.cycles < 4294967296) :
    (gb_halt_loop n ctx).cycles = (ctx.cycles + 4 * n) % 4294967296 := by
  induction n generalizing ctx with
  | zero => simpa [gb_halt_loop] using (Nat.mod_eq_of_lt (by omega)).symm
  | succ n ih =>
    unfold gb_halt_loop
    rw [if_pos hh, gb_tick_quiet ctx 4 hp h]
    rw [if_neg (by simpa using h)]
    rw [ih _ (by simpa using hp) (by simpa using h) (by simpa using hh)
      (by exact Nat.mod_lt _ (by omega))]
    simp only []
    omega

/-- C1: on a tick with IME set and `(IF & IE & 0x1F)` nonzero, the interrupt
controller in `gb_tick` does clear IME and `halted`, clears the
highest-priority bit in IF, and transfers control to the vector 0x40 — but,
contrary to the claim (and to the source's own comment "Push PC and jump to
handler"), it does *not* push the current PC: from `ctxC1` (PC = 0x1234,
SP = 0xFFFE) the post-tick SP is still 0xFFFE and the HRAM cells at
0xFFFC/0xFFFD where a CALL-style push would land are untouched, whereas
`gb_call` from the same state decrements SP to 0xFFFC and stores the
return address 0x1234 there. -/
theorem C1_interrupt_dispatch_does_not_push_pc :
    (gb_tick ctxC1 4).pc = 0x40 ∧
    (gb_tick ctxC1 4).ime = false ∧
    (gb_tick ctxC1 4).halted = false ∧
    (gb_tick ctxC1 4).ioRegs 0x0F = 0 ∧
    (gb_tick ctxC1 4).sp = 0xFFFE ∧
    (gb_tick ctxC1 4).hram 0x7C = 0 ∧
    (gb_tick ctxC1 4).hram 0x7D = 0 ∧
    (gb_call ctxC1 0x40).sp = 0xFFFC ∧
    (gb_call ctxC1 0x40).hram 0x7C = 0x34 ∧
    (gb_call ctxC1 0x40).hram 0x7D = 0x12 := by
  decide

/-- C2: the EI delay is *not* enforced by the code.  From `ctxC2` (IME = 0,
`ime_pending` = 0, IF bit 0 pending and enabled in IE), the tick that ends
the EI instruction first promotes `ime_pending` to `ime` and then checks
interrupts in the same tick, so the interrupt is dispatched *within the
tick that ends EI* — before the NOP ever runs: after `step_EI` alone, PC is
already at the vector 0x40 and the IF bit has been consumed. -/
theorem C2_ei_delay_not_enforced :
    ctxC2.ime = false ∧
    ctxC2.ime_pending = false ∧
    ctxC2.ioRegs 0x0F &&& ctxC2.ioRegs 0x80 = 1 ∧
    (step_EI ctxC2).pc = 0x40 ∧
    (step_EI ctxC2).ioRegs 0x0F = 0 ∧
    (step_EI ctxC2).ime = false := by
  decide

/-- C3: from `ctxC3` (HRAM trampoline `LDH (0xFF46),A` at 0xFF80, A = 0xC0,
return address 0x1234 on a WRAM stack) the short-circuit path of
`gb_interpret` performs the DMA write (io[0x46] = 0xC0) and executes a RET
(SP = 0xC002, PC = 0x1234); the generic path — the source's fallback, which
only logs "Implementation missing using interpreter stub" — executes no
instruction at all, so the two final states differ, contrary to the claim
that they are identical. -/
theorem C3_generic_path_is_stub :
    (gb_interpret ctxC3 0xFF80).ioRegs 0x46 = 0xC0 ∧
    (gb_interpret ctxC3 0xFF80).sp = 0xC002 ∧
    (gb_interpret ctxC3 0xFF80).pc = 0x1234 ∧
    (gb_interpret_generic ctxC3 0xFF80).ioRegs 0x46 = 0 ∧
    (gb_interpret_generic ctxC3 0xFF80).sp = 0xC000 ∧
    (gb_interpret_generic ctxC3 0xFF80).pc = 0xFF80 ∧
    (gb_interpret ctxC3 0xFF80).sp ≠ (gb_interpret_generic ctxC3 0xFF80).sp := by
  decide

/-- C4 counterexample: writing 0x85 to 0x2000 sets `rom_bank` to the full
byte 0x85, not to its low 5 bits (0x85 % 32 = 5) as the claim states. -/
theorem C4_rom_bank_counterexample :
    (gb_write8 ctx0 0x2000 0x85).rom_bank = 0x85 ∧
    ¬ (gb_write8 ctx0 0x2000 0x85).rom_bank = 0x85 % 32 := by
  decide

/-- C4 (amended): for every byte `v`, a write to 0x2000‑0x3FFF sets
`rom_bank` to the *full* byte `v` with 0 promoted to 1 (the source stores
the byte unmasked — "ROM bank select (simplified)"); a write to
0x0000‑0x1FFF enables ERAM iff the low nibble of `v` is 0xA; and no write
to 0x0000‑0x7FFF stores data into any memory region. -/
theorem C4_mbc_register_writes (ctx : GBContext) (addr v : Nat) (hv : v < 256) :
    (0x2000 ≤ addr ∧ addr ≤ 0x3FFF →
      gb_write8 ctx addr v = { ctx with rom_bank := if v = 0 then 1 else v }) ∧
    (addr ≤ 0x1FFF →
      gb_write8 ctx addr v = { ctx with ram_enabled := decide (v % 16 = 0x0A) }) ∧
    (addr ≤ 0x7FFF →
      (gb_write8 ctx addr v).wram = ctx.wram ∧
      (gb_write8 ctx addr v).vram = ctx.vram ∧
      (gb_write8 ctx addr v).oam = ctx.oam ∧
      (gb_write8 ctx addr v).hram = ctx.hram ∧
      (gb_write8 ctx addr v).ioRegs = ctx.ioRegs ∧
      (gb_write8 ctx addr v).eram = ctx.eram) := by
  refine ⟨fun h => ?_, fun h => ?_, fun h => ?_⟩
  · unfold gb_write8 gb_write8_go
    rw [Nat.mod_eq_of_lt hv, if_pos (show addr ≤ 0x7FFF by omega), if_pos h]
  · unfold gb_write8 gb_write8_go
    rw [Nat.mod_eq_of_lt hv, if_pos (show addr ≤ 0x7FFF by omega),
      if_neg (show ¬ (0x2000 ≤ addr ∧ addr ≤ 0x3FFF) by omega), if_pos h]
  · unfold gb_write8 gb_write8_go
    rw [if_pos h]
    repeat' split
    all_goals exact ⟨rfl, rfl, rfl, rfl, rfl, rfl⟩

/-- C4 witness: concrete instances of the amended statement — the bank write
0x85 stores the full byte, and the RAM-enable write 0x3A (low nibble = 0xA)
enables ERAM. -/
theorem C4_mbc_register_writes_witness :
    gb_write8 ctx0 0x2000 0x85 = { ctx0 with rom_bank := 0x85 } ∧
    gb_write8 ctx0 0x1000 0x3A = { ctx0 with ram_enabled := true } := by
  have h1 := (C4_mbc_register_writes ctx0 0x2000 0x85 (by decide)).1 ⟨by decide, by decide⟩
  have h2 := (C4_mbc_register_writes ctx0 0x1000 0x3A (by decide)).2.1 (by decide)
  exact ⟨h1, h2⟩

/-- C5: `gb_add8` sets A to `(A + v) mod 256` with flags Z = (result = 0),
N = 0, H = ((A & 0xF) + (v & 0xF)) > 0xF, C = (A + v) > 0xFF, all computed
from the pre-state A. -/
theorem C5_add8_flags (ctx : GBContext) (v : Nat) (ha : ctx.a < 256) (hv : v < 256) :
    (gb_add8 ctx v).a = (ctx.a + v) % 256 ∧
    (gb_add8 ctx v).f_z = decide ((ctx.a + v) % 256 = 0) ∧
    (gb_add8 ctx v).f_n = false ∧
    (gb_add8 ctx v).f_h = decide (0x0F < ctx.a % 16 + v % 16) ∧
    (gb_add8 ctx v).f_c = decide (0xFF < ctx.a + v) := by
  simp only [gb_add8]
  rw [Nat.mod_eq_of_lt ha, Nat.mod_eq_of_lt hv]
  exact ⟨rfl, rfl, trivial, rfl, rfl⟩

/-- C5 witness (spec scenario 3): A = 0x3A, v = 0xC6 gives A = 0x00, Z = 1,
N = 0, H = 1, C = 1. -/
theorem C5_add8_flags_witness :
    (gb_add8 ctxC5 0xC6).a = 0x00 ∧
    (gb_add8 ctxC5 0xC6).f_z = true ∧
    (gb_add8 ctxC5 0xC6).f_n = false ∧
    (gb_add8 ctxC5 0xC6).f_h = true ∧
    (gb_add8 ctxC5 0xC6).f_c = true := by
  have h := C5_add8_flags ctxC5 0xC6 (by decide) (by decide)
  exact ⟨h.1.trans (by decide), h.2.1.trans (by decide), h.2.2.1,
    h.2.2.2.1.trans (by decide), h.2.2.2.2.trans (by decide)⟩

/-- C6: for every SP and every signed 8-bit offset (given by its byte
encoding `u`), `gb_add_sp` sets SP to `(SP + offset) mod 2^16` and the flags
to Z = 0, N = 0, with H and C computed from the unsigned low-byte addition:
H from the low nibbles of SP's low byte and `u`, C from SP's low byte plus
`u` exceeding 0xFF. -/
theorem C6_add_sp_flags (ctx : GBContext) (u : Nat) (hsp : ctx.sp < 65536) (hu : u < 256) :
    (gb_add_sp ctx u).sp = (((ctx.sp : Int) + int8_val u) % 65536).toNat ∧
    (gb_add_sp ctx u).f_z = false ∧
    (gb_add_sp ctx u).f_n = false ∧
    (gb_add_sp ctx u).f_h = decide (0x0F < ctx.sp % 256 % 16 + u % 16) ∧
    (gb_add_sp ctx u).f_c = decide (0xFF < ctx.sp % 256 + u) := by
  simp only [gb_add_sp]
  rw [Nat.mod_eq_of_lt hu, Nat.mod_mod_of_dvd ctx.sp (by norm_num : (16 : Nat) ∣ 256)]
  exact ⟨rfl, trivial, trivial, rfl, rfl⟩

/-- C6 witness: SP = 0xFFF8 with offset byte 0x90 (signed −0x70) gives
SP = 0xFF88, Z = 0, N = 0, H = 0 (8 + 0 ≤ 0xF), C = 1 (0xF8 + 0x90 > 0xFF). -/
theorem C6_add_sp_flags_witness :
    (gb_add_sp ctxC6 0x90).sp = 0xFF88 ∧
    (gb_add_sp ctxC6 0x90).f_z = false ∧
    (gb_add_sp ctxC6 0x90).f_n = false ∧
    (gb_add_sp ctxC6 0x90).f_h = false ∧
    (gb_add_sp ctxC6 0x90).f_c = true := by
  have h := C6_add_sp_flags ctxC6 0x90 (by decide) (by decide)
  exact ⟨h.1.trans (by decide), h.2.1, h.2.2.1,
    h.2.2.2.1.trans (by decide), h.2.2.2.2.trans (by decide)⟩

/-- C7 counterexample: the claim quantifies over *every* context, but with
SP = 0x1000 the pushed bytes land at 0x0FFE/0x0FFF — ROM/MBC-register
space, which stores no data — so `pop16` after `push16 0x1234` returns
0xFFFF (open-bus ROM reads with no ROM loaded), not 0x1234.  SP itself is
restored. -/
theorem C7_push_pop_counterexample :
    (gb_pop16 (gb_push16 ctxC7 0x1234)).1 = 0xFFFF ∧
    ¬ (gb_pop16 (gb_push16 ctxC7 0x1234)).1 = 0x1234 ∧
    (gb_pop16 (gb_push16 ctxC7 0x1234)).2.sp = ctxC7.sp := by
  decide

/-- C7 (amended): when both stack bytes land in always-backed RAM — here
HRAM, i.e. 0xFF82 ≤ SP ≤ 0xFFFF — `push16 v` followed by `pop16` returns
`v` and restores SP: `push16` decrements SP by 2 and stores little-endian
through the bus into HRAM, `pop16` reads the bytes back and re-increments. -/
theorem C7_push_pop_roundtrip_hram (ctx : GBContext) (v : Nat) (hv : v < 65536)
    (h1 : 0xFF82 ≤ ctx.sp) (h2 : ctx.sp < 65536) :
    (gb_pop16 (gb_push16 ctx v)).1 = v ∧
    (gb_pop16 (gb_push16 ctx v)).2.sp = ctx.sp := by
  have hsp2 : (ctx.sp + 65534) % 65536 = ctx.sp - 2 := by omega
  have hinc : (ctx.sp - 2 + 1) % 65536 = ctx.sp - 1 := by omega
  have hv16 : v % 65536 = v := Nat.mod_eq_of_lt hv
  have hpush : gb_push16 ctx v =
      { ctx with
          sp := ctx.sp - 2
          hram := updf (updf ctx.hram (ctx.sp - 2 - 0xFF80) (v % 256 % 256))
                       (ctx.sp - 1 - 0xFF80) (v / 256 % 256) } := by
    unfold gb_push16 gb_write16
    simp only [hsp2, hv16, hinc]
    rw [gb_write8_hram _ _ _ (by omega) (by omega)]
    rw [gb_write8_hram _ _ _ (by omega) (by omega)]
  rw [hpush]
  unfold gb_pop16 gb_read16
  simp only [hinc]
  rw [gb_read8_hram _ _ (by omega) (by omega), gb_read8_hram _ _ (by omega) (by omega)]
  simp only [updf]
  simp only [if_true]
  rw [if_neg (show ¬ ctx.sp - 2 - 0xFF80 = ctx.sp - 1 - 0xFF80 by omega)]
  exact ⟨by omega, by omega⟩

/-- C7 witness: with SP = 0xFF90 (stack in HRAM), pushing 0xBEEF and popping
returns 0xBEEF and restores SP. -/
theorem C7_push_pop_roundtrip_hram_witness :
    (gb_pop16 (gb_push16 ctxC7b 0xBEEF)).1 = 0xBEEF ∧
    (gb_pop16 (gb_push16 ctxC7b 0xBEEF)).2.sp = 0xFF90 := by
  have h := C7_push_pop_roundtrip_hram ctxC7b 0xBEEF (by decide) (by decide) (by decide)
  exact ⟨h.1, h.2.trans (by decide)⟩

/-- C8: under HALT with no interrupt ever pending (`IE & IF = 0`, and no PPU
attached so nothing can set IF bits), the spin loop of `gb_halt` runs its
full one-frame fuse and returns, advancing exactly 70224 cycles — in
particular at most 70224. -/
theorem C8_halt_bounded (ctx : GBContext) (hp : ctx.ppu = false)
    (h : ctx.ioRegs 0x80 &&& ctx.ioRegs 0x0F = 0)
    (hc : ctx.cycles + 70224 < 4294967296) :
    (gb_halt ctx).cycles = ctx.cycles + 70224 ∧
    (gb_halt ctx).cycles ≤ ctx.cycles + 70224 := by
  have key : (gb_halt ctx).cycles = ctx.cycles + 70224 := by
    unfold gb_halt
    rw [gb_halt_loop_quiet 17556 _ (by simpa using hp) (by simpa using h) rfl
      (by simp only []; omega)]
    simp only []
    omega
  exact ⟨key, key.le⟩

/-- C8 witness: from the zeroed context (IE = IF = 0, no PPU), HALT returns
with exactly 70224 cycles elapsed. -/
theorem C8_halt_bounded_witness : (gb_halt ctx0).cycles = 70224 := by
  have h := C8_halt_bounded ctx0 rfl (by decide) (by decide)
  exact h.1.trans (by decide)

/-- C9: the translation-time cartridge loader fails (with `InvalidCartridge`)
exactly when the input is shorter than 0x150 bytes or the MBC code at 0x147
is unrecognized, and on failure produces no cartridge record; on success the
ERAM size is derived from byte 0x149 by the table (0→0, 1→2 KiB, 2→8 KiB,
3→32 KiB, 4→128 KiB, 5→64 KiB), forced to 512 bytes for MBC2 — and the
runtime-side loader `gb_context_load_rom` (from `gbrt.c`) computes the same
ERAM size on such inputs. -/
theorem C9_cartridge_load_spec (data : List Nat) :
    (isErr (cartridge_load data) = true ↔
      data.length < 0x150 ∨ classifyMbc (data.getD 0x147 0) = none) ∧
    (∀ cart, cartridge_load data = Except.ok cart →
      cart.eramSize =
        (if classifyMbc (data.getD 0x147 0) = some MbcKind.mbc2 then 512
         else eram_size_code (data.getD 0x149 0)) ∧
      (gb_context_load_rom ctx0 data).eram_size = cart.eramSize) := by
  by_cases hlen : data.length < 0x150
  · refine ⟨?_, ?_⟩
    · unfold cartridge_load
      rw [if_pos hlen]
      simp [isErr, hlen]
    · intro cart hcart
      unfold cartridge_load at hcart
      rw [if_pos hlen] at hcart
      exact absurd hcart (by simp)
  · cases hmbc : classifyMbc (data.getD 0x147 0) with
    | none =>
      refine ⟨?_, ?_⟩
      · unfold cartridge_load
        rw [if_neg hlen, hmbc]
        simp [isErr, hlen]
      · intro cart hcart
        unfold cartridge_load at hcart
        rw [if_neg hlen, hmbc] at hcart
        exact absurd hcart (by simp)
    | some k =>
      refine ⟨?_, ?_⟩
      · unfold cartridge_load
        rw [if_neg hlen, hmbc]
        simp [isErr, hlen]
      · intro cart hcart
        unfold cartridge_load at hcart
        rw [if_neg hlen, hmbc] at hcart
        simp only [Except.ok.injEq] at hcart
        subst hcart
        have hb : (data.getD 0x147 0 = 0x05 ∨ data.getD 0x147 0 = 0x06) ↔ k = MbcKind.mbc2 := by
          constructor
          · intro hb5
            unfold classifyMbc at hmbc
            rcases hb5 with h5 | h6
            · rw [if_neg (by omega), if_neg (by omega), if_pos (Or.inl h5)] at hmbc
              exact ((Option.some.injEq _ _).mp hmbc).symm
            · rw [if_neg (by omega), if_neg (by omega), if_pos (Or.inr h6)] at hmbc
              exact ((Option.some.injEq _ _).mp hmbc).symm
          · intro hk
            subst hk
            by_contra hcon
            unfold classifyMbc at hmbc
            split_ifs at hmbc <;> simp_all
        refine ⟨by simp, ?_⟩
        simp only [gb_context_load_rom]
        rw [if_pos (show 0x148 ≤ data.length by omega)]
        by_cases hb2 : data.getD 0x147 0 = 0x05 ∨ data.getD 0x147 0 = 0x06
        · rw [if_pos hb2, if_pos (by norm_num), if_pos (hb.mp hb2)]
        · rw [if_neg hb2, if_neg (fun hk => hb2 (hb.mpr hk))]
          rcases Nat.eq_zero_or_pos (eram_size_code (data.getD 0x149 0)) with h0 | hpos
          · rw [h0, if_neg (by omega)]
            rfl
          · rw [if_pos hpos]

set_option maxRecDepth 100000 in
/-- C9 witness (spec scenario 1): a 0x150-byte input with 0x147 = 0x13 and
0x149 = 0x03 loads successfully as MBC3 with 32 KiB of ERAM, and the
runtime loader allocates the same 32 KiB. -/
theorem C9_cartridge_load_spec_witness :
    isErr (cartridge_load dataC9) = false ∧
    (gb_context_load_rom ctx0 dataC9).eram_size = 32768 := by
  have h := C9_cartridge_load_spec dataC9
  have hcart : cartridge_load dataC9 =
      Except.ok ⟨MbcKind.mbc3, 32768, List.replicate 16 0⟩ := by rfl
  have h2 := h.2 _ hcart
  refine ⟨?_, h2.2.trans (by decide)⟩
  cases hb : isErr (cartridge_load dataC9)
  · rfl
  · exact absurd (h.1.mp hb) (by decide)

/-- C10: 16-bit bus accesses wrap the address modulo 2^16 (the `uint16_t`
parameter conversion): `read16(0xFFFF)` returns the IE byte (io[0x80]) as
the low byte and the ROM-bank-0 byte at address 0x0000 as the high byte;
`write16(0xFFFF, v)` stores the low byte of `v` to IE while the high byte
goes to address 0x0000 — a RAM-enable MBC-register write (latched iff its
low nibble is 0xA), never a data store (every memory region and `ioRegs`
outside index 0x80 is untouched, as the result record shows); and
`push16` with SP = 0x0001 wraps SP to 0xFFFF and performs exactly that
`write16` through addresses 0xFFFF and 0x0000. -/
theorem C10_bus_wraparound (ctx : GBContext) (v : Nat) :
    gb_read8 ctx 0xFFFF = ctx.ioRegs 0x80 % 256 ∧
    gb_read16 ctx 0xFFFF = ctx.ioRegs 0x80 % 256 + 256 * gb_read8 ctx 0 ∧
    gb_read8 ctx 0 = (match ctx.rom with | some r => r 0 % 256 | none => 0xFF) ∧
    gb_write16 ctx 0xFFFF v =
      { ctx with
          ioRegs := updf ctx.ioRegs 0x80 (v % 256)
          ram_enabled := decide (v / 256 % 16 = 0x0A) } ∧
    gb_push16 { ctx with sp := 1 } v = gb_write16 { ctx with sp := 0xFFFF } 0xFFFF v := by
  have h1 : gb_read8 ctx 0xFFFF = ctx.ioRegs 0x80 % 256 := by
    unfold gb_read8 gb_read8_go
    norm_num
  have hw1 : ∀ (c : GBContext) (x : Nat), gb_write8 c 0xFFFF x =
      { c with ioRegs := updf c.ioRegs 0x80 (x % 256) } := by
    intro c x
    unfold gb_write8 gb_write8_go
    norm_num
  have hw2 : ∀ (c : GBContext) (y : Nat), gb_write8 c 0 y =
      { c with ram_enabled := decide (y % 256 % 16 = 0x0A) } := by
    intro c y
    unfold gb_write8 gb_write8_go
    norm_num
  refine ⟨h1, ?_, ?_, ?_, ?_⟩
  · unfold gb_read16
    rw [show ((0xFFFF + 1) % 65536 : Nat) = 0 by norm_num, h1]
  · cases hr : ctx.rom <;> simp [gb_read8, gb_read8_go, hr]
  · unfold gb_write16
    simp only []
    rw [show ((0xFFFF + 1) % 65536 : Nat) = 0 by norm_num, hw1, hw2]
    rw [show v % 65536 % 256 = v % 256 from Nat.mod_mod_of_dvd v (by norm_num)]
    rw [show v % 256 % 256 = v % 256 from Nat.mod_mod_of_dvd v (dvd_refl 256)]
    rw [show (decide (v % 65536 / 256 % 256 % 16 = 0x0A) : Bool)
        = decide (v / 256 % 16 = 0x0A) from decide_eq_decide.mpr (by omega)]
  · unfold gb_push16
    norm_num

end GbRt
